import Mathlib

/-!
Shallow embedding of the RTask Home Assistant integration
(src/custom_components/rtask), covering:

- const.py: TIME_UNITS, default durations, sensor state strings;
- utils.py: DateTimeValidator.validate_and_format_datetime,
  TaskStorageManager (initialize / get_completion / set_completion /
  remove_completion), TaskDataValidator.validate_duration_config;
- sensor.py: RTaskSensor.native_value;
- the integration module: async_remove_entry and handle_mark_done.

Python dictionaries are modelled as association lists, machine strings as
Lean strings or lists of characters, datetimes as a record of numeric
fields, and fallible code by Option / Except results.
-/

/- ===================== const.py ===================== -/

def DOMAIN : String := "rtask"

/-- const.py lines 6-10: the unit table. Note that it has no "minutes" key. -/
def TIME_UNITS : List (String × Int) :=
  [("seconds", 1), ("hours", 3600), ("days", 86400)]

def DEFAULT_MIN_DURATION_SECONDS : Int := 86400

def DEFAULT_MAX_DURATION_SECONDS : Int := 604800

def SENSOR_STATE_NEVER_DONE : String := "Never Done"

def SENSOR_STATE_DONE : String := "Done"

def SENSOR_STATE_DUE : String := "Due"

def SENSOR_STATE_OVERDUE : String := "Overdue"

/- ===================== duration validation (utils.py 130-143) ===================== -/

/-- Python `TIME_UNITS.get(unit, default)`. -/
def timeUnitsGetD (unit : String) (dflt : Int) : Int :=
  match TIME_UNITS.find? (fun p => p.1 == unit) with
  | some p => p.2
  | none => dflt

/-- The conversion expression of utils.py lines 137-138:
`duration * TIME_UNITS.get(unit, 1)`. -/
def durationToSeconds (duration : Int) (unit : String) : Int :=
  duration * timeUnitsGetD unit 1

/-- utils.py lines 130-143, TaskDataValidator.validate_duration_config.
A raised ValueError is modelled as an `Except.error` carrying the message. -/
def validate_duration_config (min_duration : Int) (min_unit : String)
    (max_duration : Int) (max_unit : String) : Except String (Int × Int) :=
  let min_duration_seconds := durationToSeconds min_duration min_unit
  let max_duration_seconds := durationToSeconds max_duration max_unit
  if min_duration_seconds ≥ max_duration_seconds then
    Except.error "Maximum duration must be greater than minimum duration"
  else
    Except.ok (min_duration_seconds, max_duration_seconds)

/- ===================== sensor.py: RTaskSensor.native_value ===================== -/

/-- sensor.py lines 55-77. `now` and the recorded completion time are
points on the timeline measured in seconds (rationals, since Python's
`timedelta.total_seconds()` is fractional); the configured thresholds
are the `min_duration_seconds` / `max_duration_seconds` config values. -/
def native_value (now : ℚ) (last_completed : Option ℚ)
    (min_seconds max_seconds : ℚ) : String :=
  match last_completed with
  | none => SENSOR_STATE_NEVER_DONE
  | some lc =>
    let seconds_since := now - lc
    if seconds_since < min_seconds then SENSOR_STATE_DONE
    else if seconds_since ≤ max_seconds then SENSOR_STATE_DUE
    else SENSOR_STATE_OVERDUE

/- ===================== Python dict model ===================== -/

/-- A Python `dict[str, str]` as an association list. -/
abbrev CompMap := List (String × String)

/-- Python `d.get(k)` (returns None when the key is absent). -/
def dictGet (m : CompMap) (k : String) : Option String :=
  match m.find? (fun p => p.1 == k) with
  | some p => some p.2
  | none => none

/-- Python `k in d`. -/
def dictContains (m : CompMap) (k : String) : Bool :=
  (m.find? (fun p => p.1 == k)).isSome

/-- Python `d[k] = v`: replace the value at an existing key, else append. -/
def dictSet (m : CompMap) (k v : String) : CompMap :=
  if dictContains m k then
    m.map (fun p => if p.1 == k then (p.1, v) else p)
  else
    m ++ [(k, v)]

/-- Python `d.pop(k, None)`: drop the entry at the key if present. -/
def dictPop (m : CompMap) (k : String) : CompMap :=
  m.filter (fun p => !(p.1 == k))

/- ===================== utils.py: TaskStorageManager ===================== -/

/-- The mutable state of a TaskStorageManager together with its backing
store: `store_loaded` is whether `_store` is not None, `completions` is
`_completions`, `disk` is the content the Store would deliver on
async_load and that async_save overwrites, and `load_count` counts the
async_load calls actually performed. -/
structure StorageState where
  store_loaded : Bool
  completions : CompMap
  disk : Option CompMap
  load_count : Nat
deriving DecidableEq, Repr

/-- utils.py lines 68-73, TaskStorageManager.initialize: only when
`_store is None` does it create the store and load the persisted data
(`stored_data or {}`). -/
def initStore (s : StorageState) : StorageState :=
  if s.store_loaded then s
  else
    { store_loaded := true
      completions := s.disk.getD []
      disk := s.disk
      load_count := s.load_count + 1 }

/-- utils.py lines 75-78, TaskStorageManager.get_completion. -/
def get_completion (s : StorageState) (entry_id : String) :
    StorageState × Option String :=
  let s1 := initStore s
  (s1, dictGet s1.completions entry_id)

/-- utils.py lines 80-85, TaskStorageManager.set_completion: initialize,
write to the in-memory dict, then persist it. -/
def set_completion (s : StorageState) (entry_id completion_time : String) :
    StorageState :=
  let s1 := initStore s
  let c := dictSet s1.completions entry_id completion_time
  { s1 with completions := c, disk := some c }

/-- utils.py lines 87-92, TaskStorageManager.remove_completion. -/
def remove_completion (s : StorageState) (entry_id : String) : StorageState :=
  let s1 := initStore s
  let c := dictPop s1.completions entry_id
  { s1 with completions := c, disk := some c }

/-- The public operations of the storage manager, for stating properties
of whole call sequences. -/
inductive StOp
| opInit
| opGet (k : String)
| opSet (k v : String)
| opRemove (k : String)

def runOp (s : StorageState) : StOp → StorageState
| .opInit => initStore s
| .opGet k => (get_completion s k).1
| .opSet k v => set_completion s k v
| .opRemove k => remove_completion s k

def runOps (s : StorageState) (l : List StOp) : StorageState :=
  l.foldl runOp s

/-- A freshly constructed TaskStorageManager (utils.py lines 62-66) over a
given backing store content. -/
def freshManager (disk : Option CompMap) : StorageState :=
  { store_loaded := false, completions := [], disk := disk, load_count := 0 }

/- ===================== rtask module: async_remove_entry ===================== -/

/-- The integration module, lines 196-206 (async_remove_entry), acting on the
completions dict kept in `hass.data[DOMAIN]["completions"]`: if the entry id
is a key, pop it (and save); otherwise nothing changes. -/
def async_remove_entry (completions : CompMap) (entry_id : String) : CompMap :=
  if dictContains completions entry_id then dictPop completions entry_id
  else completions

/- ===================== utils.py: DateTimeValidator ===================== -/

/-- A value of Python's datetime class, restricted to the fields the five
accepted formats can produce (microseconds are always 0). -/
structure PyDateTime where
  year : Nat
  month : Nat
  day : Nat
  hour : Nat
  minute : Nat
  second : Nat
deriving DecidableEq, Repr

/-- The whitespace characters of Python's `str.strip()` and of the `\s`
class in `re` patterns, restricted to ASCII. -/
def pyIsSpace (c : Char) : Bool :=
  c = ' ' || c = '\t' || c = '\n' || c = '\r' || c = '\x0b' || c = '\x0c'

/-- Python `s.strip()`. -/
def pyStrip (s : List Char) : List Char :=
  ((s.dropWhile pyIsSpace).reverse.dropWhile pyIsSpace).reverse

/-- Numeric value of a digit character. -/
def dval (c : Char) : Nat := c.toNat - 48

/-- The digit character for a value below ten. -/
def digitChar (n : Nat) : Char := Char.ofNat (48 + n)

/-- Backtracking choice: the second branch is tried when the whole first
branch fails, as in a regex alternation. -/
def obt : Option PyDateTime → Option PyDateTime → Option PyDateTime
| some r, _ => some r
| none, y => y

/-- A 1-or-2-digit numeric field of a strptime pattern. CPython compiles
each such directive to an alternation that lists its two-digit
alternatives before the single-digit one; `p2` holds of the digit pairs
accepted by the two-digit alternatives and `p1` of the digits accepted by
the one-digit alternative. The regex engine falls back to the shorter
alternative when the rest of the pattern fails after the longer one. -/
def field2 (p2 : Nat → Nat → Bool) (p1 : Nat → Bool) :
    List Char → (Nat → List Char → Option PyDateTime) → Option PyDateTime
| a :: b :: rest, k =>
  obt
    (if a.isDigit && b.isDigit && p2 (dval a) (dval b) then
      k (10 * dval a + dval b) rest
    else none)
    (if a.isDigit && p1 (dval a) then k (dval a) (b :: rest) else none)
| [a], k => if a.isDigit && p1 (dval a) then k (dval a) [] else none
| [], _ => none

/-- The `%Y` directive: exactly four digits. -/
def parseYear4 :
    List Char → (Nat → List Char → Option PyDateTime) → Option PyDateTime
| a :: b :: c :: d :: rest, k =>
  if a.isDigit && b.isDigit && c.isDigit && d.isDigit then
    k (1000 * dval a + 100 * dval b + 10 * dval c + dval d) rest
  else none
| _, _ => none

/-- A literal character of the pattern. -/
def lch (c : Char) :
    List Char → (List Char → Option PyDateTime) → Option PyDateTime
| x :: rest, k => if x = c then k rest else none
| [], _ => none

/-- The literal `T` of the ISO patterns; CPython compiles the whole
pattern with IGNORECASE, so it also matches `t`. -/
def litT : List Char → (List Char → Option PyDateTime) → Option PyDateTime
| x :: rest, k => if x = 'T' || x = 't' then k rest else none
| [], _ => none

/-- A whitespace run in the pattern, compiled by CPython to `\s+`. The
construct is greedy; backtracking inside the run cannot matter here
because every continuation in the five patterns starts with a digit. -/
def wsp : List Char → (List Char → Option PyDateTime) → Option PyDateTime
| x :: rest, k => if pyIsSpace x then k (rest.dropWhile pyIsSpace) else none
| [], _ => none

/-- Two-digit `%m` alternatives `1[0-2]|0[1-9]`. -/
def mon2 (a b : Nat) : Bool := decide ((a = 1 ∧ b ≤ 2) ∨ (a = 0 ∧ 1 ≤ b))

/-- One-digit `%m` alternative `[1-9]`. -/
def mon1 (a : Nat) : Bool := decide (1 ≤ a ∧ a ≤ 9)

/-- Two-digit `%d` alternatives `3[01]|[12]\d|0[1-9]`. -/
def day2 (a b : Nat) : Bool :=
  decide ((a = 3 ∧ b ≤ 1) ∨ a = 1 ∨ a = 2 ∨ (a = 0 ∧ 1 ≤ b))

/-- One-digit `%d` alternative `[1-9]`. -/
def day1 (a : Nat) : Bool := decide (1 ≤ a ∧ a ≤ 9)

/-- Two-digit `%H` alternatives `2[0-3]|[0-1]\d`. -/
def hour2 (a b : Nat) : Bool := decide (a ≤ 1 ∨ (a = 2 ∧ b ≤ 3))

/-- One-digit `%H` alternative `\d`. -/
def hour1 (_ : Nat) : Bool := true

/-- Two-digit `%M` alternative `[0-5]\d`. -/
def min2 (a _ : Nat) : Bool := decide (a ≤ 5)

/-- One-digit `%M` alternative `\d`. -/
def min1 (_ : Nat) : Bool := true

/-- Two-digit `%S` alternatives `[0-5]\d|6[01]`. -/
def sec2 (a b : Nat) : Bool := decide (a ≤ 5 ∨ (a = 6 ∧ b ≤ 1))

/-- One-digit `%S` alternative `\d`. -/
def sec1 (_ : Nat) : Bool := true

def isLeap (y : Nat) : Bool :=
  (y % 4 = 0 && y % 100 ≠ 0) || y % 400 = 0

def daysInMonth (y m : Nat) : Nat :=
  if m = 2 then (if isLeap y then 29 else 28)
  else if m = 4 ∨ m = 6 ∨ m = 9 ∨ m = 11 then 30
  else 31

/-- End of a strptime run: the whole string must have been consumed (the
"unconverted data remains" check) and the datetime constructor must
accept the fields; both failures surface as ValueError and make the
format loop move on. -/
def mkDT (y m d h mi sec : Nat) (s : List Char) : Option PyDateTime :=
  match s with
  | [] =>
    if 1 ≤ y && y ≤ 9999 && 1 ≤ m && m ≤ 12 && 1 ≤ d &&
        d ≤ daysInMonth y m && h ≤ 23 && mi ≤ 59 && sec ≤ 59 then
      some ⟨y, m, d, h, mi, sec⟩
    else none
  | _ => none

/-- The shared `%Y-%m-%d` prefix of all five formats. -/
def matchDatePrefix (s : List Char)
    (k : Nat → Nat → Nat → List Char → Option PyDateTime) :
    Option PyDateTime :=
  parseYear4 s fun y s1 =>
  lch '-' s1 fun s2 =>
  field2 mon2 mon1 s2 fun m s3 =>
  lch '-' s3 fun d4 =>
  field2 day2 day1 d4 fun d s5 =>
  k y m d s5

/-- The `%H:%M` segment of the four time-carrying formats. -/
def matchHM (s : List Char)
    (k : Nat → Nat → List Char → Option PyDateTime) : Option PyDateTime :=
  field2 hour2 hour1 s fun h s1 =>
  lch ':' s1 fun s2 =>
  field2 min2 min1 s2 fun mi s3 =>
  k h mi s3

/-- The five candidate formats of utils.py lines 33-39, in source order. -/
inductive Fmt
| ymd_hm
| ymd_hms
| ymd
| ymdT_hm
| ymdT_hms
deriving DecidableEq, Repr

/-- `datetime.strptime(s, fmt)` for the five formats, as compiled by
CPython's `_strptime` (two-digit alternatives before one-digit ones,
IGNORECASE on the literal `T`, whitespace in the pattern as `\s+`, a full
match required, and the datetime constructor checks applied last). -/
def strptime : Fmt → List Char → Option PyDateTime
| .ymd_hm, s =>
  matchDatePrefix s fun y m d s5 =>
  wsp s5 fun s6 =>
  matchHM s6 fun h mi s9 =>
  mkDT y m d h mi 0 s9
| .ymd_hms, s =>
  matchDatePrefix s fun y m d s5 =>
  wsp s5 fun s6 =>
  matchHM s6 fun h mi s9 =>
  lch ':' s9 fun s10 =>
  field2 sec2 sec1 s10 fun sec s11 =>
  mkDT y m d h mi sec s11
| .ymd, s =>
  matchDatePrefix s fun y m d s5 =>
  mkDT y m d 0 0 0 s5
| .ymdT_hm, s =>
  matchDatePrefix s fun y m d s5 =>
  litT s5 fun s6 =>
  matchHM s6 fun h mi s9 =>
  mkDT y m d h mi 0 s9
| .ymdT_hms, s =>
  matchDatePrefix s fun y m d s5 =>
  litT s5 fun s6 =>
  matchHM s6 fun h mi s9 =>
  lch ':' s9 fun s10 =>
  field2 sec2 sec1 s10 fun sec s11 =>
  mkDT y m d h mi sec s11

/-- The format list of utils.py lines 33-39, in the order tried. -/
def formats_to_try : List Fmt :=
  [.ymd_hm, .ymd_hms, .ymd, .ymdT_hm, .ymdT_hms]

/-- The for-loop of utils.py lines 41-46: first successful parse wins. -/
def tryFormats (s : List Char) : List Fmt → Option PyDateTime
| [] => none
| f :: fs =>
  match strptime f s with
  | some d => some d
  | none => tryFormats s fs

/-- `datetime.isoformat()` for a value with zero microseconds:
zero-padded `YYYY-MM-DDTHH:MM:SS`. -/
def isoformat (d : PyDateTime) : List Char :=
  [digitChar (d.year / 1000), digitChar (d.year / 100 % 10),
   digitChar (d.year / 10 % 10), digitChar (d.year % 10), '-',
   digitChar (d.month / 10), digitChar (d.month % 10), '-',
   digitChar (d.day / 10), digitChar (d.day % 10), 'T',
   digitChar (d.hour / 10), digitChar (d.hour % 10), ':',
   digitChar (d.minute / 10), digitChar (d.minute % 10), ':',
   digitChar (d.second / 10), digitChar (d.second % 10)]

/-- The three possible outcomes of the string branch of
validate_and_format_datetime. -/
inductive VOut
| noneOut
| okOut (s : List Char)
| valueErrorOut
deriving DecidableEq, Repr

/-- utils.py lines 17-50, DateTimeValidator.validate_and_format_datetime,
restricted to its string branch (the None input returns None and a
datetime input short-circuits through `.isoformat()`; the claims concern
string inputs). -/
def validate_and_format_datetime (s : List Char) : VOut :=
  let dt_string := pyStrip s
  if dt_string = [] then VOut.noneOut
  else
    match tryFormats dt_string formats_to_try with
    | some d => VOut.okOut (isoformat d)
    | none => VOut.valueErrorOut

/- ===================== rtask module: handle_mark_done ===================== -/

/-- One record of the Home Assistant entity registry, restricted to the
fields handle_mark_done reads. -/
structure EntityEntry where
  platform : String
  config_entry_id : String
deriving DecidableEq, Repr

/-- The part of `hass.data[DOMAIN]` that handle_mark_done touches:
`entries` are the keys present in the dict (the membership test
`config_entry_id in hass.data[DOMAIN]`), `last_completed` the per-entry
in-memory timestamps, `completions` the persisted dict. -/
structure DomainData where
  entries : List String
  last_completed : CompMap
  completions : CompMap
deriving DecidableEq, Repr

/-- The integration module, lines 136-167 (handle_mark_done). `entity_id`
is `call.data.get("entity_id")`; Python's `if not entity_id` is falsy for
both None and the empty string. `now` stands for `datetime.now()`, already
rendered in its isoformat. The service handler returns without touching
anything unless the entity resolves to an rtask entity whose config entry
id is a key of `hass.data[DOMAIN]`. -/
def handle_mark_done (registry : List (String × EntityEntry)) (now : String)
    (data : DomainData) (entity_id : Option String) : DomainData :=
  match entity_id with
  | none => data
  | some eid =>
    if eid = "" then data
    else
      match registry.find? (fun p => p.1 == eid) with
      | none => data
      | some p =>
        if p.2.platform ≠ DOMAIN then data
        else if p.2.config_entry_id ∈ data.entries then
          { data with
            last_completed := dictSet data.last_completed p.2.config_entry_id now
            completions := dictSet data.completions p.2.config_entry_id now }
        else data

/- ===================== helper lemmas: dict model ===================== -/

theorem dictGet_cons_pos {p : String × String} {t : CompMap} {k : String}
    (h : p.1 = k) : dictGet (p :: t) k = some p.2 := by
  simp [dictGet, List.find?_cons_of_pos, h]

theorem dictGet_cons_neg {p : String × String} {t : CompMap} {k : String}
    (h : ¬ p.1 = k) : dictGet (p :: t) k = dictGet t k := by
  simp only [dictGet, List.find?]
  have hb : (p.1 == k) = false := by simp [h]
  simp [hb]

theorem dictContains_cons {p : String × String} {t : CompMap} {k : String} :
    dictContains (p :: t) k = ((p.1 == k) || dictContains t k) := by
  by_cases h : p.1 = k
  · simp [dictContains, List.find?, h]
  · have hb : (p.1 == k) = false := by simp [h]
    simp [dictContains, List.find?, hb]

theorem dictGet_mapOverwrite_self {m : CompMap} {k v : String}
    (h : dictContains m k = true) :
    dictGet (m.map (fun p => if p.1 == k then (p.1, v) else p)) k = some v := by
  induction m with
  | nil => simp [dictContains, List.find?] at h
  | cons p t ih =>
    by_cases hp : p.1 = k
    · have hb : (p.1 == k) = true := by simp [hp]
      simp only [List.map_cons, hb, if_pos]
      exact dictGet_cons_pos hp
    · have hb : (p.1 == k) = false := by simp [hp]
      simp only [List.map_cons, hb, Bool.false_eq_true, if_neg, not_false_iff]
      rw [dictGet_cons_neg hp]
      apply ih
      rw [dictContains_cons, hb] at h
      simpa using h

theorem dictGet_append_single_self {m : CompMap} {k v : String}
    (h : dictContains m k = false) :
    dictGet (m ++ [(k, v)]) k = some v := by
  induction m with
  | nil => simp [dictGet, List.find?]
  | cons p t ih =>
    rw [dictContains_cons] at h
    simp only [Bool.or_eq_false_iff] at h
    have hp : ¬ p.1 = k := by simpa using h.1
    rw [List.cons_append, dictGet_cons_neg hp]
    exact ih h.2

theorem dictGet_set_self (m : CompMap) (k v : String) :
    dictGet (dictSet m k v) k = some v := by
  rw [dictSet]
  by_cases h : dictContains m k
  · rw [if_pos h]
    exact dictGet_mapOverwrite_self h
  · rw [if_neg h]
    exact dictGet_append_single_self (by simpa using h)

theorem dictGet_pop_self (m : CompMap) (k : String) :
    dictGet (dictPop m k) k = none := by
  induction m with
  | nil => simp [dictPop, dictGet, List.find?]
  | cons p t ih =>
    by_cases hp : p.1 = k
    · have hb : (p.1 == k) = true := by simp [hp]
      simpa [dictPop, List.filter, hb] using ih
    · have hb : (p.1 == k) = false := by simp [hp]
      simp only [dictPop, List.filter, hb, Bool.not_false]
      rw [dictGet_cons_neg hp]
      simpa [dictPop] using ih

theorem dictGet_pop_other (m : CompMap) (k k2 : String) (h : ¬ k2 = k) :
    dictGet (dictPop m k) k2 = dictGet m k2 := by
  induction m with
  | nil => simp [dictPop]
  | cons p t ih =>
    by_cases hp : p.1 = k
    · have hb : (p.1 == k) = true := by simp [hp]
      have hp2 : ¬ p.1 = k2 := by
        intro he
        exact h (he.symm.trans hp)
      simp only [dictPop, List.filter, hb, Bool.not_true]
      rw [dictGet_cons_neg hp2]
      simpa [dictPop] using ih
    · have hb : (p.1 == k) = false := by simp [hp]
      simp only [dictPop, List.filter, hb, Bool.not_false]
      by_cases hp2 : p.1 = k2
      · rw [dictGet_cons_pos hp2, dictGet_cons_pos hp2]
      · rw [dictGet_cons_neg hp2, dictGet_cons_neg hp2]
        simpa [dictPop] using ih

theorem dictGet_none_contains_false {m : CompMap} {k : String}
    (h : dictGet m k = none) : dictContains m k = false := by
  induction m with
  | nil => simp [dictContains, List.find?]
  | cons p t ih =>
    rw [dictContains_cons]
    by_cases hp : p.1 = k
    · rw [dictGet_cons_pos hp] at h
      exact absurd h (by simp)
    · have hb : (p.1 == k) = false := by simp [hp]
      rw [dictGet_cons_neg hp] at h
      simp [hb, ih h]

theorem dictPop_absent {m : CompMap} {k : String}
    (h : dictGet m k = none) : dictPop m k = m := by
  induction m with
  | nil => simp [dictPop]
  | cons p t ih =>
    by_cases hp : p.1 = k
    · rw [dictGet_cons_pos hp] at h
      exact absurd h (by simp)
    · have hb : (p.1 == k) = false := by simp [hp]
      rw [dictGet_cons_neg hp] at h
      simp only [dictPop, List.filter, hb, Bool.not_false]
      exact congrArg (p :: ·) (ih h)

/- ===================== claim C1 ===================== -/

/-- C1: for every task with a recorded last-completed timestamp (and a
configuration satisfying the data-model invariant min ≤ max), the
sensor's native_value classifies the elapsed time into the three buckets:
Done when elapsed < min, Due when min ≤ elapsed ≤ max, Overdue when
elapsed > max. -/
theorem native_value_three_buckets (now lc min_seconds max_seconds : ℚ)
    (hle : min_seconds ≤ max_seconds) :
    (now - lc < min_seconds →
      native_value now (some lc) min_seconds max_seconds = SENSOR_STATE_DONE) ∧
    (min_seconds ≤ now - lc ∧ now - lc ≤ max_seconds →
      native_value now (some lc) min_seconds max_seconds = SENSOR_STATE_DUE) ∧
    (max_seconds < now - lc →
      native_value now (some lc) min_seconds max_seconds = SENSOR_STATE_OVERDUE) := by
  refine ⟨fun h => ?_, fun h => ?_, fun h => ?_⟩
  · simp [native_value, h]
  · rw [native_value]
    rw [if_neg (by linarith), if_pos h.2]
  · rw [native_value]
    rw [if_neg (by linarith), if_neg (by linarith)]

/-- C1 witness: a concrete overdue classification, with the hypotheses of
the theorem discharged at concrete values. -/
theorem native_value_three_buckets_witness :
    native_value 10 (some 0) 3 7 = SENSOR_STATE_OVERDUE :=
  (native_value_three_buckets 10 0 3 7 (by norm_num)).2.2 (by norm_num)

/- ===================== claim C4 ===================== -/

/-- C4: native_value always returns one of exactly four states, and it
returns "Never Done" exactly when no last-completed timestamp is
recorded. -/
theorem native_value_four_states (now : ℚ) (lc : Option ℚ)
    (min_seconds max_seconds : ℚ) :
    native_value now lc min_seconds max_seconds ∈
      [SENSOR_STATE_NEVER_DONE, SENSOR_STATE_DONE, SENSOR_STATE_DUE,
       SENSOR_STATE_OVERDUE] ∧
    (native_value now lc min_seconds max_seconds = SENSOR_STATE_NEVER_DONE ↔
      lc = none) := by
  match lc with
  | none => simp [native_value]
  | some t =>
    rw [native_value]
    constructor
    · split
      · simp
      · split
        · simp
        · simp
    · constructor
      · intro h
        exfalso
        revert h
        split
        · exact fun h => by
            simp [SENSOR_STATE_DONE, SENSOR_STATE_NEVER_DONE] at h
        · split
          · exact fun h => by
              simp [SENSOR_STATE_DUE, SENSOR_STATE_NEVER_DONE] at h
          · exact fun h => by
              simp [SENSOR_STATE_OVERDUE, SENSOR_STATE_NEVER_DONE] at h
      · intro h
        exact absurd h (by simp)

/-- C4 witness: the theorem instantiated at a concrete never-done task and
evaluated. -/
theorem native_value_four_states_witness :
    native_value 5 none 1 2 = SENSOR_STATE_NEVER_DONE :=
  (native_value_four_states 5 none 1 2).2.mpr rfl

/- ===================== claim C2 ===================== -/

/-- C2 counterexample: the claim says a "minutes" duration converts with
factor 60, but TIME_UNITS has no "minutes" key and the conversion falls
back to factor 1: validate_duration_config accepts (5, minutes, 1, hours)
and returns 5 seconds for the minimum, not 5 * 60 = 300. -/
theorem minutes_unit_counterexample :
    validate_duration_config 5 "minutes" 1 "hours" = Except.ok (5, 3600) ∧
    durationToSeconds 5 "minutes" = 5 ∧ (5 : Int) ≠ 5 * 60 := by
  refine ⟨rfl, rfl, by decide⟩

/-- C2 amended: validate_duration_config converts a (value, unit) pair
with factor 1 for "seconds", 3600 for "hours", and 86400 for "days";
any unit outside TIME_UNITS, including "minutes", falls back to
factor 1. -/
theorem duration_conversion_units (v : Int) :
    durationToSeconds v "seconds" = v * 1 ∧
    durationToSeconds v "hours" = v * 3600 ∧
    durationToSeconds v "days" = v * 86400 ∧
    durationToSeconds v "minutes" = v * 1 :=
  ⟨rfl, rfl, rfl, rfl⟩

/- ===================== claim C3 ===================== -/

/-- C3: validate_duration_config raises ValueError exactly when the
converted minimum is at least the converted maximum, and any returned
pair satisfies min_duration_seconds < max_duration_seconds. -/
theorem validate_duration_min_lt_max (min_duration max_duration : Int)
    (min_unit max_unit : String) :
    ((∃ e, validate_duration_config min_duration min_unit max_duration max_unit
        = Except.error e) ↔
      durationToSeconds max_duration max_unit ≤
        durationToSeconds min_duration min_unit) ∧
    (∀ p, validate_duration_config min_duration min_unit max_duration max_unit
        = Except.ok p → p.1 < p.2) := by
  simp only [validate_duration_config]
  by_cases h : durationToSeconds min_duration min_unit ≥
      durationToSeconds max_duration max_unit
  · rw [if_pos h]
    refine ⟨Iff.intro (fun _ => h) (fun _ => ⟨_, rfl⟩), fun p hp => ?_⟩
    cases hp
  · rw [if_neg h]
    refine ⟨Iff.intro (fun he => ?_) (fun hc => absurd hc h), fun p hp => ?_⟩
    · obtain ⟨e, he⟩ := he
      cases he
    · cases hp
      simpa using lt_of_not_ge h

/-- C3 witness: the theorem applied to the default one-day / seven-day
configuration, discharging the Except.ok hypothesis by evaluation. -/
theorem validate_duration_min_lt_max_witness : (86400 : Int) < 604800 :=
  (validate_duration_min_lt_max 1 7 "days" "days").2 (86400, 604800) rfl

/- ===================== claim C7 ===================== -/

/-- C7: removing a config entry deletes that entry's completion record and
leaves every other entry id's record unchanged. -/
theorem remove_entry_frame (completions : CompMap) (entry_id : String) :
    dictGet (async_remove_entry completions entry_id) entry_id = none ∧
    (∀ other, other ≠ entry_id →
      dictGet (async_remove_entry completions entry_id) other =
        dictGet completions other) := by
  rw [async_remove_entry]
  by_cases h : dictContains completions entry_id
  · rw [if_pos h]
    exact ⟨dictGet_pop_self _ _, fun o ho => dictGet_pop_other _ _ _ ho⟩
  · rw [if_neg h]
    refine ⟨?_, fun o _ => rfl⟩
    have h2 : completions.find? (fun p => p.1 == entry_id) = none := by
      cases hf : completions.find? (fun p => p.1 == entry_id) with
      | none => rfl
      | some p =>
        rw [dictContains, hf] at h
        simp at h
    rw [dictGet, h2]

/-- C7 witness: removing entry "a" keeps entry "b" intact. -/
theorem remove_entry_frame_witness :
    dictGet (async_remove_entry [("a", "1"), ("b", "2")] "a") "b" = some "2" :=
  (remove_entry_frame [("a", "1"), ("b", "2")] "a").2 "b" (by decide)

/- ===================== helper lemmas: storage manager ===================== -/

theorem initStore_of_loaded {s : StorageState} (h : s.store_loaded = true) :
    initStore s = s := by
  rw [initStore, if_pos h]

theorem initStore_loaded (s : StorageState) :
    (initStore s).store_loaded = true := by
  rw [initStore]
  split
  · assumption
  · rfl

theorem runOp_loaded (s : StorageState) (op : StOp) :
    (runOp s op).store_loaded = true := by
  cases op with
  | opInit => exact initStore_loaded s
  | opGet k => exact initStore_loaded s
  | opSet k v => exact initStore_loaded s
  | opRemove k => exact initStore_loaded s

theorem runOp_load_count_of_loaded (s : StorageState) (op : StOp)
    (h : s.store_loaded = true) :
    (runOp s op).load_count = s.load_count := by
  cases op with
  | opInit => rw [runOp, initStore_of_loaded h]
  | opGet k => simp [runOp, get_completion, initStore_of_loaded h]
  | opSet k v => simp [runOp, set_completion, initStore_of_loaded h]
  | opRemove k => simp [runOp, remove_completion, initStore_of_loaded h]

theorem runOps_load_count_of_loaded (ops : List StOp) (s : StorageState)
    (h : s.store_loaded = true) :
    (runOps s ops).load_count = s.load_count := by
  induction ops generalizing s with
  | nil => rfl
  | cons op rest ih =>
    rw [runOps, List.foldl_cons]
    rw [show List.foldl runOp (runOp s op) rest = runOps (runOp s op) rest from rfl]
    rw [ih (runOp s op) (runOp_loaded s op), runOp_load_count_of_loaded s op h]

theorem runOp_load_count_le (s : StorageState) (op : StOp) :
    (runOp s op).load_count ≤ s.load_count + 1 := by
  cases op with
  | opInit =>
    rw [runOp, initStore]
    split
    · exact Nat.le_succ _
    · exact Nat.le_refl _
  | opGet k =>
    simp only [runOp, get_completion, initStore]
    split
    · exact Nat.le_succ _
    · exact Nat.le_refl _
  | opSet k v =>
    simp only [runOp, set_completion, initStore]
    split
    · exact Nat.le_succ _
    · exact Nat.le_refl _
  | opRemove k =>
    simp only [runOp, remove_completion, initStore]
    split
    · exact Nat.le_succ _
    · exact Nat.le_refl _

/- ===================== claim C6 ===================== -/

/-- C6: the completion store behaves as a key-to-timestamp mapping: a
get_completion immediately following a set_completion of the same entry
id returns the timestamp just written (from any manager state), and over
any sequence of operations on a freshly constructed manager the backing
store is loaded at most once; afterwards reads are served from the cache
(they change neither the loaded data nor the load count). -/
theorem completion_store_set_get (stored : Option CompMap) :
    (∀ s entry_id t,
      (get_completion (set_completion s entry_id t) entry_id).2 = some t) ∧
    (∀ ops, (runOps (freshManager stored) ops).load_count ≤ 1) := by
  constructor
  · intro s entry_id t
    have hl : (set_completion s entry_id t).store_loaded = true := by
      simp [set_completion, initStore_loaded]
    rw [get_completion]
    simp only [initStore_of_loaded hl]
    simp only [set_completion]
    exact dictGet_set_self _ _ _
  · intro ops
    cases ops with
    | nil => exact Nat.zero_le 1
    | cons op rest =>
      rw [runOps, List.foldl_cons]
      rw [show List.foldl runOp (runOp (freshManager stored) op) rest =
            runOps (runOp (freshManager stored) op) rest from rfl]
      rw [runOps_load_count_of_loaded rest _ (runOp_loaded _ op)]
      exact runOp_load_count_le (freshManager stored) op

/-- C6 witness: a concrete set followed by a get returns the written
timestamp, via the theorem. -/
theorem completion_store_set_get_witness :
    (get_completion
      (set_completion (freshManager (some [("a", "x")])) "b" "t2") "b").2 =
      some "t2" :=
  (completion_store_set_get (some [("a", "x")])).1
    (freshManager (some [("a", "x")])) "b" "t2"

/- ===================== claim C10 ===================== -/

/-- C10: for an entry id absent from the loaded completion mapping,
get_completion returns None rather than failing, and remove_completion
leaves the completion mapping unchanged (both operations are total in
the model, as `dict.get` and `dict.pop(key, None)` are in Python). -/
theorem absent_entry_get_remove (s : StorageState) (entry_id : String)
    (h : dictGet (initStore s).completions entry_id = none) :
    (get_completion s entry_id).2 = none ∧
    (remove_completion s entry_id).completions =
      (initStore s).completions := by
  constructor
  · rw [get_completion]
    exact h
  · rw [remove_completion]
    exact dictPop_absent h

/-- C10 witness: a fresh manager over an empty backing store has no
completion for "x"; both conclusions evaluated there. -/
theorem absent_entry_get_remove_witness :
    (get_completion (freshManager none) "x").2 = none ∧
    (remove_completion (freshManager none) "x").completions =
      (initStore (freshManager none)).completions :=
  absent_entry_get_remove (freshManager none) "x" rfl

/- ===================== claim C8 ===================== -/

/-- C8 counterexample: a mark_done service call without an entity_id
leaves the domain data, in particular every completion record, exactly as
it was; the targeted update the claim asserts does not happen. -/
theorem mark_done_no_entity_counterexample :
    handle_mark_done [] "2026-01-02T03:04:05"
        ⟨["e1"], [("e1", "old")], [("e1", "old")]⟩ none =
      ⟨["e1"], [("e1", "old")], [("e1", "old")]⟩ ∧
    dictGet [("e1", "old")] "e1" ≠ some "2026-01-02T03:04:05" := by
  exact ⟨rfl, by decide⟩

/-- C8 amended: a mark_done service call updates and persists the
completion record only when it carries a non-empty entity_id that
resolves in the entity registry to an entity of the rtask platform whose
config entry id is a key of the domain data; in every other case the
handler returns with the data unchanged. -/
theorem mark_done_guarded (registry : List (String × EntityEntry))
    (now : String) (data : DomainData) :
    (handle_mark_done registry now data none = data) ∧
    (handle_mark_done registry now data (some "") = data) ∧
    (∀ eid, eid ≠ "" →
      registry.find? (fun p => p.1 == eid) = none →
      handle_mark_done registry now data (some eid) = data) ∧
    (∀ eid p, eid ≠ "" →
      registry.find? (fun q => q.1 == eid) = some p →
      p.2.platform ≠ DOMAIN →
      handle_mark_done registry now data (some eid) = data) ∧
    (∀ eid p, eid ≠ "" →
      registry.find? (fun q => q.1 == eid) = some p →
      p.2.platform = DOMAIN →
      p.2.config_entry_id ∉ data.entries →
      handle_mark_done registry now data (some eid) = data) ∧
    (∀ eid p, eid ≠ "" →
      registry.find? (fun q => q.1 == eid) = some p →
      p.2.platform = DOMAIN →
      p.2.config_entry_id ∈ data.entries →
      handle_mark_done registry now data (some eid) =
        { data with
          last_completed := dictSet data.last_completed p.2.config_entry_id now
          completions := dictSet data.completions p.2.config_entry_id now }) := by
  refine ⟨rfl, rfl, ?_, ?_, ?_, ?_⟩
  · intro eid he hf
    simp [handle_mark_done, he, hf]
  · intro eid p he hf hp
    simp [handle_mark_done, he, hf, hp]
  · intro eid p he hf hp hm
    simp [handle_mark_done, he, hf, hp, hm]
  · intro eid p he hf hp hm
    simp [handle_mark_done, he, hf, hp, hm]

/-- C8 witness: the positive branch of the amended statement at a concrete
registry and domain state. -/
theorem mark_done_guarded_witness :
    handle_mark_done [("sensor.t", ⟨"rtask", "e1"⟩)] "T1"
        ⟨["e1"], [], []⟩ (some "sensor.t") =
      ⟨["e1"], [("e1", "T1")], [("e1", "T1")]⟩ := by
  have h := (mark_done_guarded [("sensor.t", ⟨"rtask", "e1"⟩)] "T1"
      ⟨["e1"], [], []⟩).2.2.2.2.2 "sensor.t" ("sensor.t", ⟨"rtask", "e1"⟩)
      (by decide) (by decide) rfl (by decide)
  rw [h]
  rfl

/- ===================== helper lemmas: digit characters ===================== -/

theorem digitChar_isDigit {n : Nat} (h : n ≤ 9) :
    (digitChar n).isDigit = true := by
  interval_cases n <;> decide

theorem dval_digitChar {n : Nat} (h : n ≤ 9) : dval (digitChar n) = n := by
  interval_cases n <;> decide

theorem digitChar_ne_dash {n : Nat} (h : n ≤ 9) : digitChar n ≠ '-' := by
  interval_cases n <;> decide

theorem digitChar_ne_colon {n : Nat} (h : n ≤ 9) : digitChar n ≠ ':' := by
  interval_cases n <;> decide

theorem digitChar_notT {n : Nat} (h : n ≤ 9) :
    (decide (digitChar n = 'T') || decide (digitChar n = 't')) = false := by
  interval_cases n <;> decide

theorem pyIsSpace_digitChar {n : Nat} (h : n ≤ 9) :
    pyIsSpace (digitChar n) = false := by
  interval_cases n <;> decide

/- ===================== helper lemmas: combinator evaluation ===================== -/

theorem parseYear4_canon {a b c e : Nat} {rest : List Char} {k}
    (ha : a ≤ 9) (hb : b ≤ 9) (hc : c ≤ 9) (he : e ≤ 9) :
    parseYear4
        (digitChar a :: digitChar b :: digitChar c :: digitChar e :: rest) k =
      k (1000 * a + 100 * b + 10 * c + e) rest := by
  simp only [parseYear4, digitChar_isDigit ha, digitChar_isDigit hb,
    digitChar_isDigit hc, digitChar_isDigit he, dval_digitChar ha,
    dval_digitChar hb, dval_digitChar hc, dval_digitChar he, Bool.and_self,
    Bool.true_and, if_true]

theorem lch_pos {c : Char} {rest : List Char} {k} :
    lch c (c :: rest) k = k rest := by
  simp [lch]

theorem lch_ne {c x : Char} {rest : List Char} {k} (h : ¬ x = c) :
    lch c (x :: rest) k = none := by
  simp [lch, h]

theorem litT_T {rest : List Char} {k} : litT ('T' :: rest) k = k rest := by
  simp [litT]

theorem litT_digit {n : Nat} {rest : List Char} {k} (h : n ≤ 9) :
    litT (digitChar n :: rest) k = none := by
  simp only [litT, digitChar_notT h, Bool.false_eq_true, if_neg,
    not_false_iff]

theorem wsp_T {rest : List Char} {k} : wsp ('T' :: rest) k = none := by
  simp [wsp, pyIsSpace]

theorem wsp_digit {n : Nat} {rest : List Char} {k} (h : n ≤ 9) :
    wsp (digitChar n :: rest) k = none := by
  simp only [wsp, pyIsSpace_digitChar h, Bool.false_eq_true, if_neg,
    not_false_iff]

theorem field2_canon_pos {p2 : Nat → Nat → Bool} {p1 : Nat → Bool}
    {a b : Nat} {rest : List Char} {k} {r : PyDateTime}
    (ha : a ≤ 9) (hb : b ≤ 9) (h2 : p2 a b = true)
    (hk : k (10 * a + b) rest = some r) :
    field2 p2 p1 (digitChar a :: digitChar b :: rest) k = some r := by
  simp only [field2, digitChar_isDigit ha, digitChar_isDigit hb,
    dval_digitChar ha, dval_digitChar hb, h2, Bool.and_self, Bool.true_and,
    if_true, hk, obt]

theorem field2_canon_none {p2 : Nat → Nat → Bool} {p1 : Nat → Bool}
    {a b : Nat} {rest : List Char} {k}
    (ha : a ≤ 9) (hb : b ≤ 9)
    (hk2 : k (10 * a + b) rest = none)
    (hk1 : k a (digitChar b :: rest) = none) :
    field2 p2 p1 (digitChar a :: digitChar b :: rest) k = none := by
  simp only [field2, digitChar_isDigit ha, digitChar_isDigit hb,
    dval_digitChar ha, dval_digitChar hb, Bool.true_and]
  cases hp2 : p2 a b <;> cases hp1 : p1 a <;>
    simp [obt, hk1, hk2]

theorem mkDT_cons {y m d h mi sec : Nat} {x : Char} {l : List Char} :
    mkDT y m d h mi sec (x :: l) = none := rfl

theorem daysInMonth_le_31 (y m : Nat) : daysInMonth y m ≤ 31 := by
  rw [daysInMonth]
  split
  · split <;> omega
  · split <;> omega

/-- The joint bounds that the datetime constructor enforces on every
successfully parsed value. -/
def dtBounds (dt : PyDateTime) : Prop :=
  1 ≤ dt.year ∧ dt.year ≤ 9999 ∧ 1 ≤ dt.month ∧ dt.month ≤ 12 ∧
  1 ≤ dt.day ∧ dt.day ≤ daysInMonth dt.year dt.month ∧
  dt.hour ≤ 23 ∧ dt.minute ≤ 59 ∧ dt.second ≤ 59

theorem mkDT_nil_pos {y m d h mi sec : Nat}
    (hb : dtBounds ⟨y, m, d, h, mi, sec⟩) :
    mkDT y m d h mi sec [] = some ⟨y, m, d, h, mi, sec⟩ := by
  obtain ⟨h1, h2, h3, h4, h5, h6, h7, h8, h9⟩ := hb
  rw [mkDT]
  rw [if_pos]
  simp only [decide_eq_true_eq] at h6 ⊢
  refine ?_
  simp only [Bool.and_eq_true, decide_eq_true_eq]
  exact ⟨⟨⟨⟨⟨⟨⟨⟨h1, h2⟩, h3⟩, h4⟩, h5⟩, h6⟩, h7⟩, h8⟩, h9⟩

theorem mkDT_inv {y m d h mi sec : Nat} {s : List Char} {dt : PyDateTime}
    (hp : mkDT y m d h mi sec s = some dt) :
    dt = ⟨y, m, d, h, mi, sec⟩ ∧ dtBounds dt := by
  cases s with
  | cons x l => cases hp
  | nil =>
    rw [mkDT] at hp
    by_cases hc : (1 ≤ y && y ≤ 9999 && 1 ≤ m && m ≤ 12 && 1 ≤ d &&
        d ≤ daysInMonth y m && h ≤ 23 && mi ≤ 59 && sec ≤ 59) = true
    · rw [if_pos hc] at hp
      simp only [Bool.and_eq_true, decide_eq_true_eq] at hc
      cases hp
      exact ⟨rfl,
        hc.1.1.1.1.1.1.1.1, hc.1.1.1.1.1.1.1.2, hc.1.1.1.1.1.1.2,
        hc.1.1.1.1.1.2, hc.1.1.1.1.2, hc.1.1.1.2, hc.1.1.2, hc.1.2, hc.2⟩
    · rw [if_neg hc] at hp
      cases hp

/- ===================== canonical-string evaluation lemmas ===================== -/

theorem matchDatePrefix_canon_some {y m d : Nat} {rest : List Char} {k}
    {r : PyDateTime}
    (hy : y ≤ 9999) (hm1 : 1 ≤ m) (hm2 : m ≤ 12) (hd1 : 1 ≤ d) (hd2 : d ≤ 31)
    (hk : k y m d rest = some r) :
    matchDatePrefix
      (digitChar (y / 1000) :: digitChar (y / 100 % 10) ::
       digitChar (y / 10 % 10) :: digitChar (y % 10) :: '-' ::
       digitChar (m / 10) :: digitChar (m % 10) :: '-' ::
       digitChar (d / 10) :: digitChar (d % 10) :: rest) k = some r := by
  have hyy : 1000 * (y / 1000) + 100 * (y / 100 % 10) + 10 * (y / 10 % 10) +
      y % 10 = y := by omega
  have hmm : 10 * (m / 10) + m % 10 = m := by omega
  have hdd : 10 * (d / 10) + d % 10 = d := by omega
  rw [matchDatePrefix]
  rw [parseYear4_canon (by omega) (by omega) (by omega) (by omega)]
  simp only [hyy]
  simp only [lch_pos]
  apply field2_canon_pos (by omega) (by omega)
      (by simp only [mon2, decide_eq_true_eq]; omega)
  simp only [hmm]
  simp only [lch_pos]
  apply field2_canon_pos (by omega) (by omega)
      (by simp only [day2, decide_eq_true_eq]; omega)
  simp only [hdd]
  exact hk

theorem matchDatePrefix_canon_none {y m d : Nat} {rest : List Char} {k}
    (hy : y ≤ 9999) (hm1 : 1 ≤ m) (hm2 : m ≤ 12) (hd1 : 1 ≤ d) (hd2 : d ≤ 31)
    (hk2 : k y m d rest = none)
    (hk1 : k y m (d / 10) (digitChar (d % 10) :: rest) = none) :
    matchDatePrefix
      (digitChar (y / 1000) :: digitChar (y / 100 % 10) ::
       digitChar (y / 10 % 10) :: digitChar (y % 10) :: '-' ::
       digitChar (m / 10) :: digitChar (m % 10) :: '-' ::
       digitChar (d / 10) :: digitChar (d % 10) :: rest) k = none := by
  have hyy : 1000 * (y / 1000) + 100 * (y / 100 % 10) + 10 * (y / 10 % 10) +
      y % 10 = y := by omega
  have hmm : 10 * (m / 10) + m % 10 = m := by omega
  have hdd : 10 * (d / 10) + d % 10 = d := by omega
  rw [matchDatePrefix]
  rw [parseYear4_canon (by omega) (by omega) (by omega) (by omega)]
  simp only [hyy]
  simp only [lch_pos]
  apply field2_canon_none (by omega) (by omega)
  · simp only [hmm]
    simp only [lch_pos]
    apply field2_canon_none (by omega) (by omega)
    · simp only [hdd]
      exact hk2
    · exact hk1
  · exact lch_ne (digitChar_ne_dash (by omega))

theorem matchHM_canon_some {h mi : Nat} {rest : List Char} {k}
    {r : PyDateTime}
    (hh : h ≤ 23) (hmi : mi ≤ 59) (hk : k h mi rest = some r) :
    matchHM (digitChar (h / 10) :: digitChar (h % 10) :: ':' ::
      digitChar (mi / 10) :: digitChar (mi % 10) :: rest) k = some r := by
  have hhh : 10 * (h / 10) + h % 10 = h := by omega
  have hmm : 10 * (mi / 10) + mi % 10 = mi := by omega
  rw [matchHM]
  apply field2_canon_pos (by omega) (by omega)
      (by simp only [hour2, decide_eq_true_eq]; omega)
  simp only [hhh]
  simp only [lch_pos]
  apply field2_canon_pos (by omega) (by omega)
      (by simp only [min2, decide_eq_true_eq]; omega)
  simp only [hmm]
  exact hk

theorem matchHM_canon_none {h mi : Nat} {rest : List Char} {k}
    (hh : h ≤ 23) (hmi : mi ≤ 59)
    (hk2 : k h mi rest = none)
    (hk1 : k h (mi / 10) (digitChar (mi % 10) :: rest) = none) :
    matchHM (digitChar (h / 10) :: digitChar (h % 10) :: ':' ::
      digitChar (mi / 10) :: digitChar (mi % 10) :: rest) k = none := by
  have hhh : 10 * (h / 10) + h % 10 = h := by omega
  have hmm : 10 * (mi / 10) + mi % 10 = mi := by omega
  rw [matchHM]
  apply field2_canon_none (by omega) (by omega)
  · simp only [hhh]
    simp only [lch_pos]
    apply field2_canon_none (by omega) (by omega)
    · simp only [hmm]
      exact hk2
    · exact hk1
  · exact lch_ne (digitChar_ne_colon (by omega))

/- ===================== strptime on canonical output ===================== -/

theorem strptime_hm_iso {y m d h mi sec : Nat}
    (hy : y ≤ 9999) (hm1 : 1 ≤ m) (hm2 : m ≤ 12)
    (hd1 : 1 ≤ d) (hd2 : d ≤ 31) :
    strptime .ymd_hm (isoformat ⟨y, m, d, h, mi, sec⟩) = none := by
  simp only [strptime, isoformat]
  apply matchDatePrefix_canon_none hy hm1 hm2 hd1 hd2
  · exact wsp_T
  · exact wsp_digit (by omega)

theorem strptime_hms_iso {y m d h mi sec : Nat}
    (hy : y ≤ 9999) (hm1 : 1 ≤ m) (hm2 : m ≤ 12)
    (hd1 : 1 ≤ d) (hd2 : d ≤ 31) :
    strptime .ymd_hms (isoformat ⟨y, m, d, h, mi, sec⟩) = none := by
  simp only [strptime, isoformat]
  apply matchDatePrefix_canon_none hy hm1 hm2 hd1 hd2
  · exact wsp_T
  · exact wsp_digit (by omega)

theorem strptime_ymd_iso {y m d h mi sec : Nat}
    (hy : y ≤ 9999) (hm1 : 1 ≤ m) (hm2 : m ≤ 12)
    (hd1 : 1 ≤ d) (hd2 : d ≤ 31) :
    strptime .ymd (isoformat ⟨y, m, d, h, mi, sec⟩) = none := by
  simp only [strptime, isoformat]
  apply matchDatePrefix_canon_none hy hm1 hm2 hd1 hd2
  · exact mkDT_cons
  · exact mkDT_cons

theorem strptime_Thm_iso {y m d h mi sec : Nat}
    (hy : y ≤ 9999) (hm1 : 1 ≤ m) (hm2 : m ≤ 12)
    (hd1 : 1 ≤ d) (hd2 : d ≤ 31) (hh : h ≤ 23) (hmi : mi ≤ 59) :
    strptime .ymdT_hm (isoformat ⟨y, m, d, h, mi, sec⟩) = none := by
  simp only [strptime, isoformat]
  apply matchDatePrefix_canon_none hy hm1 hm2 hd1 hd2
  · simp only [litT_T]
    apply matchHM_canon_none hh hmi
    · exact mkDT_cons
    · exact mkDT_cons
  · exact litT_digit (by omega)

theorem strptime_Thms_iso {y m d h mi sec : Nat}
    (hb : dtBounds ⟨y, m, d, h, mi, sec⟩) :
    strptime .ymdT_hms (isoformat ⟨y, m, d, h, mi, sec⟩) =
      some ⟨y, m, d, h, mi, sec⟩ := by
  simp only [dtBounds] at hb
  obtain ⟨h1, h2, h3, h4, h5, h6, h7, h8, h9⟩ := hb
  have hss : 10 * (sec / 10) + sec % 10 = sec := by omega
  have hd31 : d ≤ 31 := le_trans h6 (daysInMonth_le_31 y m)
  simp only [strptime, isoformat]
  apply matchDatePrefix_canon_some h2 h3 h4 h5 hd31
  simp only [litT_T]
  apply matchHM_canon_some h7 h8
  simp only [lch_pos]
  apply field2_canon_pos (by omega) (by omega)
      (by simp only [sec2, decide_eq_true_eq]; omega)
  simp only [hss]
  exact mkDT_nil_pos ⟨h1, h2, h3, h4, h5, h6, h7, h8, h9⟩

theorem tryFormats_isoformat {dt : PyDateTime} (hb : dtBounds dt) :
    tryFormats (isoformat dt) formats_to_try = some dt := by
  obtain ⟨y, m, d, h, mi, sec⟩ := dt
  have hb2 := hb
  simp only [dtBounds] at hb
  obtain ⟨h1, h2, h3, h4, h5, h6, h7, h8, h9⟩ := hb
  have hd31 : d ≤ 31 := le_trans h6 (daysInMonth_le_31 y m)
  rw [formats_to_try]
  rw [tryFormats, strptime_hm_iso h2 h3 h4 h5 hd31]
  rw [tryFormats, strptime_hms_iso h2 h3 h4 h5 hd31]
  rw [tryFormats, strptime_ymd_iso h2 h3 h4 h5 hd31]
  rw [tryFormats, strptime_Thm_iso h2 h3 h4 h5 hd31 h7 h8]
  rw [tryFormats, strptime_Thms_iso hb2]

/- ===================== inversion lemmas ===================== -/

theorem obt_inv {x y : Option PyDateTime} {d : PyDateTime}
    (h : obt x y = some d) : x = some d ∨ y = some d := by
  cases x with
  | some r => exact Or.inl h
  | none => exact Or.inr h

theorem field2_inv {p2 : Nat → Nat → Bool} {p1 : Nat → Bool}
    {s : List Char} {k} {d : PyDateTime}
    (h : field2 p2 p1 s k = some d) : ∃ v s2, k v s2 = some d := by
  cases s with
  | nil => exact absurd h (by simp [field2])
  | cons a s1 =>
    cases s1 with
    | nil =>
      simp only [field2] at h
      split at h
      · exact ⟨_, _, h⟩
      · cases h
    | cons b rest =>
      simp only [field2] at h
      rcases obt_inv h with h1 | h1
      · split at h1
        · exact ⟨_, _, h1⟩
        · cases h1
      · split at h1
        · exact ⟨_, _, h1⟩
        · cases h1

theorem parseYear4_inv {s : List Char} {k} {d : PyDateTime}
    (h : parseYear4 s k = some d) : ∃ v s2, k v s2 = some d := by
  cases s with
  | nil => exact absurd h (by simp [parseYear4])
  | cons a s1 =>
  cases s1 with
  | nil => exact absurd h (by simp [parseYear4])
  | cons b s2 =>
  cases s2 with
  | nil => exact absurd h (by simp [parseYear4])
  | cons c s3 =>
  cases s3 with
  | nil => exact absurd h (by simp [parseYear4])
  | cons e rest =>
    simp only [parseYear4] at h
    split at h
    · exact ⟨_, _, h⟩
    · cases h

theorem lch_inv {c : Char} {s : List Char} {k} {d : PyDateTime}
    (h : lch c s k = some d) : ∃ s2, k s2 = some d := by
  cases s with
  | nil => exact absurd h (by simp [lch])
  | cons x rest =>
    simp only [lch] at h
    split at h
    · exact ⟨_, h⟩
    · cases h

theorem litT_inv {s : List Char} {k} {d : PyDateTime}
    (h : litT s k = some d) : ∃ s2, k s2 = some d := by
  cases s with
  | nil => exact absurd h (by simp [litT])
  | cons x rest =>
    simp only [litT] at h
    split at h
    · exact ⟨_, h⟩
    · cases h

theorem wsp_inv {s : List Char} {k} {d : PyDateTime}
    (h : wsp s k = some d) : ∃ s2, k s2 = some d := by
  cases s with
  | nil => exact absurd h (by simp [wsp])
  | cons x rest =>
    simp only [wsp] at h
    split at h
    · exact ⟨_, h⟩
    · cases h

theorem matchDatePrefix_inv {s : List Char} {k} {dt : PyDateTime}
    (h : matchDatePrefix s k = some dt) :
    ∃ y m d s5, k y m d s5 = some dt := by
  rw [matchDatePrefix] at h
  obtain ⟨y, s1, h⟩ := parseYear4_inv h
  obtain ⟨s2, h⟩ := lch_inv h
  obtain ⟨m, s3, h⟩ := field2_inv h
  obtain ⟨s4, h⟩ := lch_inv h
  obtain ⟨d, s5, h⟩ := field2_inv h
  exact ⟨y, m, d, s5, h⟩

theorem matchHM_inv {s : List Char} {k} {dt : PyDateTime}
    (h : matchHM s k = some dt) : ∃ hr mi s3, k hr mi s3 = some dt := by
  rw [matchHM] at h
  obtain ⟨hr, s1, h⟩ := field2_inv h
  obtain ⟨s2, h⟩ := lch_inv h
  obtain ⟨mi, s3, h⟩ := field2_inv h
  exact ⟨hr, mi, s3, h⟩

theorem strptime_bounds {f : Fmt} {s : List Char} {dt : PyDateTime}
    (h : strptime f s = some dt) : dtBounds dt := by
  cases f with
  | ymd_hm =>
    simp only [strptime] at h
    obtain ⟨y, m, d, s5, h⟩ := matchDatePrefix_inv h
    obtain ⟨s6, h⟩ := wsp_inv h
    obtain ⟨hr, mi, s9, h⟩ := matchHM_inv h
    exact (mkDT_inv h).2
  | ymd_hms =>
    simp only [strptime] at h
    obtain ⟨y, m, d, s5, h⟩ := matchDatePrefix_inv h
    obtain ⟨s6, h⟩ := wsp_inv h
    obtain ⟨hr, mi, s9, h⟩ := matchHM_inv h
    obtain ⟨s10, h⟩ := lch_inv h
    obtain ⟨sec, s11, h⟩ := field2_inv h
    exact (mkDT_inv h).2
  | ymd =>
    simp only [strptime] at h
    obtain ⟨y, m, d, s5, h⟩ := matchDatePrefix_inv h
    exact (mkDT_inv h).2
  | ymdT_hm =>
    simp only [strptime] at h
    obtain ⟨y, m, d, s5, h⟩ := matchDatePrefix_inv h
    obtain ⟨s6, h⟩ := litT_inv h
    obtain ⟨hr, mi, s9, h⟩ := matchHM_inv h
    exact (mkDT_inv h).2
  | ymdT_hms =>
    simp only [strptime] at h
    obtain ⟨y, m, d, s5, h⟩ := matchDatePrefix_inv h
    obtain ⟨s6, h⟩ := litT_inv h
    obtain ⟨hr, mi, s9, h⟩ := matchHM_inv h
    obtain ⟨s10, h⟩ := lch_inv h
    obtain ⟨sec, s11, h⟩ := field2_inv h
    exact (mkDT_inv h).2

theorem tryFormats_bounds {s : List Char} {fs : List Fmt} {dt : PyDateTime}
    (h : tryFormats s fs = some dt) : dtBounds dt := by
  induction fs with
  | nil => exact absurd h (by simp [tryFormats])
  | cons f rest ih =>
    simp only [tryFormats] at h
    cases hf : strptime f s with
    | some d2 =>
      rw [hf] at h
      cases h
      exact strptime_bounds hf
    | none =>
      rw [hf] at h
      exact ih h

theorem tryFormats_none_iff {s : List Char} {fs : List Fmt} :
    tryFormats s fs = none ↔ ∀ f ∈ fs, strptime f s = none := by
  induction fs with
  | nil => simp [tryFormats]
  | cons f rest ih =>
    simp only [tryFormats]
    cases hf : strptime f s with
    | some d2 => simp [hf]
    | none => simp [hf, ih]

/- ===================== strip of canonical output ===================== -/

theorem pyStrip_keep {l : List Char}
    (hh : ∀ c, l.head? = some c → pyIsSpace c = false)
    (hl : ∀ c, l.getLast? = some c → pyIsSpace c = false) :
    pyStrip l = l := by
  rw [pyStrip]
  cases l with
  | nil => rfl
  | cons x xs =>
    have hx : pyIsSpace x = false := hh x rfl
    rw [List.dropWhile_cons]
    rw [if_neg (by simp [hx])]
    cases hr : (x :: xs).reverse with
    | nil => exact absurd hr (by simp)
    | cons y ys =>
      have hy : pyIsSpace y = false := by
        apply hl
        rw [← List.head?_reverse, hr]
        rfl
      rw [List.dropWhile_cons, if_neg (by simp [hy]), ← hr,
        List.reverse_reverse]

theorem isoformat_head (y m d h mi sec : Nat) :
    (isoformat ⟨y, m, d, h, mi, sec⟩).head? = some (digitChar (y / 1000)) :=
  rfl

theorem isoformat_last (y m d h mi sec : Nat) :
    (isoformat ⟨y, m, d, h, mi, sec⟩).getLast? =
      some (digitChar (sec % 10)) := rfl

theorem isoformat_ne_nil (dt : PyDateTime) : isoformat dt ≠ [] := by
  simp [isoformat]

theorem pyStrip_isoformat {dt : PyDateTime} (hb : dtBounds dt) :
    pyStrip (isoformat dt) = isoformat dt := by
  obtain ⟨y, m, d, h, mi, sec⟩ := dt
  simp only [dtBounds] at hb
  apply pyStrip_keep
  · intro c hc
    rw [isoformat_head] at hc
    cases hc
    exact pyIsSpace_digitChar (by omega)
  · intro c hc
    rw [isoformat_last] at hc
    cases hc
    exact pyIsSpace_digitChar (by omega)

/- ===================== claim C5 ===================== -/

/-- C5 counterexample: a whitespace-only input is a non-empty string whose
stripped form matches none of the formats, yet validate_and_format_datetime
returns None instead of raising ValueError. -/
theorem datetime_whitespace_counterexample :
    ([' '] : List Char) ≠ [] ∧
    (∀ f ∈ formats_to_try, strptime f (pyStrip [' ']) = none) ∧
    validate_and_format_datetime [' '] = VOut.noneOut := by
  refine ⟨by decide, by decide, rfl⟩

/-- C5 amended: for every input string that is still non-empty after
stripping whitespace, validate_and_format_datetime tries the five formats
in their fixed order, returns the ISO string of the first successful
parse (a date-only input getting time 00:00:00), and raises ValueError
exactly when the stripped string matches none of the formats. -/
theorem datetime_normalizer_order (s : List Char) (h : ¬ pyStrip s = []) :
    (validate_and_format_datetime s = VOut.valueErrorOut ↔
      ∀ f ∈ formats_to_try, strptime f (pyStrip s) = none) ∧
    (∀ d, strptime .ymd_hm (pyStrip s) = some d →
      validate_and_format_datetime s = VOut.okOut (isoformat d)) ∧
    (∀ d, strptime .ymd_hm (pyStrip s) = none →
      strptime .ymd_hms (pyStrip s) = some d →
      validate_and_format_datetime s = VOut.okOut (isoformat d)) ∧
    (∀ d, strptime .ymd_hm (pyStrip s) = none →
      strptime .ymd_hms (pyStrip s) = none →
      strptime .ymd (pyStrip s) = some d →
      validate_and_format_datetime s = VOut.okOut (isoformat d)) ∧
    (∀ d, strptime .ymd_hm (pyStrip s) = none →
      strptime .ymd_hms (pyStrip s) = none →
      strptime .ymd (pyStrip s) = none →
      strptime .ymdT_hm (pyStrip s) = some d →
      validate_and_format_datetime s = VOut.okOut (isoformat d)) ∧
    (∀ d, strptime .ymd_hm (pyStrip s) = none →
      strptime .ymd_hms (pyStrip s) = none →
      strptime .ymd (pyStrip s) = none →
      strptime .ymdT_hm (pyStrip s) = none →
      strptime .ymdT_hms (pyStrip s) = some d →
      validate_and_format_datetime s = VOut.okOut (isoformat d)) ∧
    (∀ d, strptime .ymd (pyStrip s) = some d →
      d.hour = 0 ∧ d.minute = 0 ∧ d.second = 0) := by
  refine ⟨⟨?_, ?_⟩, ?_, ?_, ?_, ?_, ?_, ?_⟩
  · intro hv
    rw [← tryFormats_none_iff]
    cases ht : tryFormats (pyStrip s) formats_to_try with
    | none => rfl
    | some d =>
      simp only [validate_and_format_datetime, if_neg h, ht] at hv
      cases hv
  · intro hall
    simp only [validate_and_format_datetime, if_neg h,
      tryFormats_none_iff.mpr hall]
  · intro d hs
    simp only [validate_and_format_datetime, if_neg h, formats_to_try,
      tryFormats, hs]
  · intro d h1 hs
    simp only [validate_and_format_datetime, if_neg h, formats_to_try,
      tryFormats, h1, hs]
  · intro d h1 h2 hs
    simp only [validate_and_format_datetime, if_neg h, formats_to_try,
      tryFormats, h1, h2, hs]
  · intro d h1 h2 h3 hs
    simp only [validate_and_format_datetime, if_neg h, formats_to_try,
      tryFormats, h1, h2, h3, hs]
  · intro d h1 h2 h3 h4 hs
    simp only [validate_and_format_datetime, if_neg h, formats_to_try,
      tryFormats, h1, h2, h3, h4, hs]
  · intro d hs
    simp only [strptime] at hs
    obtain ⟨y, m, dd, s5, hk⟩ := matchDatePrefix_inv hs
    obtain ⟨he, _⟩ := mkDT_inv hk
    subst he
    exact ⟨rfl, rfl, rfl⟩

/-- C5 witness: a concrete date-only input parsed by the third format after
the first two fail, with all hypotheses discharged by evaluation. -/
theorem datetime_normalizer_order_witness :
    validate_and_format_datetime
        ['2', '0', '2', '5', '-', '0', '1', '-', '0', '2'] =
      VOut.okOut (isoformat ⟨2025, 1, 2, 0, 0, 0⟩) :=
  (datetime_normalizer_order
    ['2', '0', '2', '5', '-', '0', '1', '-', '0', '2'] (by decide)).2.2.2.1
    ⟨2025, 1, 2, 0, 0, 0⟩ (by decide) (by decide) (by decide)

/- ===================== claim C9 ===================== -/

/-- C9: validate_and_format_datetime is idempotent on its outputs: an
accepted string normalizes to a canonical ISO string that is accepted
again with the same result, and the canonical output re-parses under the
ISO format with seconds to the same datetime value. -/
theorem datetime_normalizer_idempotent (s r : List Char)
    (h : validate_and_format_datetime s = VOut.okOut r) :
    validate_and_format_datetime r = VOut.okOut r ∧
    (∃ dt, r = isoformat dt ∧ strptime .ymdT_hms r = some dt) := by
  simp only [validate_and_format_datetime] at h
  by_cases hs : pyStrip s = []
  · rw [if_pos hs] at h
    cases h
  · rw [if_neg hs] at h
    cases ht : tryFormats (pyStrip s) formats_to_try with
    | none =>
      rw [ht] at h
      cases h
    | some dt =>
      rw [ht] at h
      cases h
      have hb : dtBounds dt := tryFormats_bounds ht
      have hiso : pyStrip (isoformat dt) = isoformat dt := pyStrip_isoformat hb
      constructor
      · simp only [validate_and_format_datetime, hiso,
          if_neg (isoformat_ne_nil dt), tryFormats_isoformat hb]
      · refine ⟨dt, rfl, ?_⟩
        obtain ⟨y, m, d, hh, mi, sec⟩ := dt
        exact strptime_Thms_iso hb

/-- C9 witness: a concrete accepted input whose canonical output is stable
under a second normalization, via the theorem. -/
theorem datetime_normalizer_idempotent_witness :
    validate_and_format_datetime
        ['2', '0', '2', '5', '-', '0', '9', '-', '0', '8', 'T',
         '1', '6', ':', '0', '0', ':', '0', '0'] =
      VOut.okOut
        ['2', '0', '2', '5', '-', '0', '9', '-', '0', '8', 'T',
         '1', '6', ':', '0', '0', ':', '0', '0'] :=
  (datetime_normalizer_idempotent
    ['2', '0', '2', '5', '-', '0', '9', '-', '0', '8', ' ',
     '1', '6', ':', '0', '0']
    ['2', '0', '2', '5', '-', '0', '9', '-', '0', '8', 'T',
     '1', '6', ':', '0', '0', ':', '0', '0']
    (by decide)).1
